import Mathlib

/-!
Verification development for the scene layout transformation engine of the
FengShui backend (`app/services/usdz_optimizer.py`).

The Python code is shallowly embedded here:
* Python floats are modelled as exact rationals (`ℚ`); every comparison and
  arithmetic operation of the source is mirrored exactly on `ℚ`.
* Python dicts built by sequential insertion are modelled as association
  lists with a "last binding wins" lookup (`dictLookup`), matching dict
  assignment semantics.
* Untrusted JSON proposal dicts are modelled by the `Proposal` structure with
  `Option` fields for keys that may be absent (or present but uncoercible —
  both cases make the source `continue`, so they are merged into `none`).
* Exceptions and filesystem-dependent step outcomes of
  `_apply_transformations` are modelled by `Except` valued fields of an
  environment record (`ApplyEnv`), one per fallible stage of the source.
-/

namespace USDZOptimizer

/-! ### Small string helpers (models of Python `str.strip` / `str.lower`) -/

/-- Whitespace characters recognised by Python `str.strip()` (ASCII subset;
the ids handled by this service are ASCII). -/
def isPyWhitespace (c : Char) : Bool :=
  c = ' ' || c = '\t' || c = '\n' || c = '\r' || c = '\x0b' || c = '\x0c'

/-- Model of Python `str.strip()`. -/
def pyStrip (s : String) : String :=
  ⟨((s.data.dropWhile isPyWhitespace).reverse.dropWhile isPyWhitespace).reverse⟩

/-- Lower-casing of a single ASCII character (model of Python `str.lower`
restricted to ASCII, which covers the object ids and type names used here). -/
def asciiLowerChar (c : Char) : Char :=
  if 'A' ≤ c ∧ c ≤ 'Z' then Char.ofNat (c.toNat + 32) else c

/-- Model of Python `str.lower()`. -/
def asciiLower (s : String) : String :=
  ⟨s.data.map asciiLowerChar⟩

/-- Lookup in an association list built by sequential Python dict insertion:
the *last* binding for a key wins, exactly like repeated dict assignment. -/
def dictLookup {α : Type} (l : List (String × α)) (k : String) : Option α :=
  l.foldl (fun acc p => if p.1 = k then some p.2 else acc) none

/-! ### Data model -/

/-- A `SpatialObject` from the analysis request: id, type, current position
`(x, y)` and footprint dimensions in metres (height is unused by the engine).
-/
structure RoomObject where
  id : String
  type : String
  px : ℚ
  py : ℚ
  length_m : ℚ
  width_m : ℚ
deriving DecidableEq, Repr

/-- An untrusted relocation proposal (one JSON dict of the external planner's
`transformations` list).  `has_pos` records whether the `new_position` key held
a dict at all; `pos_x`/`pos_y` are its coordinates when present and coercible
to float.  `score` is the coerced `expected_score_improvement` (the source
maps a missing, falsy or uncoercible value to `0.0` before sorting). -/
structure Proposal where
  object_id : String
  has_pos : Bool
  pos_x : Option ℚ
  pos_y : Option ℚ
  rot : Option ℚ
  score : ℚ
deriving DecidableEq, Repr

/-- A cleaned relocation as produced by `_normalize_and_spread_transformations`:
the id has been `strip()`-ed and both coordinates are known. -/
structure SanitizedRelocation where
  object_id : String
  px : ℚ
  py : ℚ
  rot : Option ℚ
  score : ℚ
deriving DecidableEq, Repr

/-! ### `_cap_transformations_for_crowded_scenes` -/

/-- The `type_by_id` dict built at the top of
`_cap_transformations_for_crowded_scenes`: lowercased object id mapped to the
lowercased type string. -/
def cap_type_by_id (objs : List RoomObject) : List (String × String) :=
  objs.map (fun o => (asciiLower o.id, asciiLower o.type))

/-- The type the cap assigns to a proposal: dict lookup of the stripped,
lowercased id, defaulting to the empty string. -/
def capType (objs : List RoomObject) (t : Proposal) : String :=
  (dictLookup (cap_type_by_id objs) (asciiLower (pyStrip t.object_id))).getD ""

/-- The ascending sort order used by the cap:
`sorted(key = lambda t: (-score(t), str(t.get("object_id", ""))))`. -/
def capLe (t u : Proposal) : Prop :=
  toLex (-t.score, t.object_id) ≤ toLex (-u.score, u.object_id)

instance : DecidableRel capLe := fun t u =>
  inferInstanceAs (Decidable (toLex (-t.score, t.object_id) ≤ toLex (-u.score, u.object_id)))

instance : IsTotal Proposal capLe :=
  ⟨fun t u => le_total (toLex (-t.score, t.object_id)) (toLex (-u.score, u.object_id))⟩

instance : IsTrans Proposal capLe :=
  ⟨fun _ _ _ h h2 => le_trans h h2⟩

/-- Proposals surviving the cap's per-item validity check (a dict with a
nonempty stripped id; in this model every proposal is a dict). -/
def cap_valid (ts : List Proposal) : List Proposal :=
  ts.filter (fun t => pyStrip t.object_id ≠ "")

/-- The cap's `desks` bucket. -/
def cap_desks (objs : List RoomObject) (ts : List Proposal) : List Proposal :=
  (cap_valid ts).filter (fun t => capType objs t = "desk")

/-- The cap's `chairs` bucket. -/
def cap_chairs (objs : List RoomObject) (ts : List Proposal) : List Proposal :=
  (cap_valid ts).filter (fun t => capType objs t = "chair")

/-- The cap's `other` bucket. -/
def cap_other (objs : List RoomObject) (ts : List Proposal) : List Proposal :=
  (cap_valid ts).filter (fun t => capType objs t ≠ "desk" ∧ capType objs t ≠ "chair")

/-- Model of `_cap_transformations_for_crowded_scenes` with the default
`max_desks = 1`, `max_chairs = 1`.  Proposals are grouped by looked-up type
(the source's single pass appending to `desks`/`chairs`/`other` is three
filters); proposals with an empty stripped id are skipped; desks and chairs
are sorted best-improvement-first (ties by object id) and truncated to one
each.  With no room request the list is returned unchanged.  (Python's
`sorted` is a stable sort; `List.insertionSort` is also stable, and the
theorems below only use the head of the sorted list.) -/
def cap_transformations_for_crowded_scenes
    (ts : List Proposal) (room : Option (List RoomObject)) : List Proposal :=
  match room with
  | none => ts
  | some objs =>
    if ts.isEmpty then ts
    else
      cap_other objs ts ++ ((cap_desks objs ts).insertionSort capLe).take 1
        ++ ((cap_chairs objs ts).insertionSort capLe).take 1

/-! ### `_normalize_and_spread_transformations`: lookup tables and bounds -/

/-- The `dims_by_id` dict: lowercased id → `(length_m, width_m)`. -/
def dims_by_id (objs : List RoomObject) : List (String × (ℚ × ℚ)) :=
  objs.map (fun o => (asciiLower o.id, (o.length_m, o.width_m)))

/-- The `type_by_id` dict: lowercased id → lowercased type. -/
def type_by_id (objs : List RoomObject) : List (String × String) :=
  objs.map (fun o => (asciiLower o.id, asciiLower o.type))

/-- The `orig_pos_by_id` dict: lowercased id → original `(x, y)` position. -/
def orig_pos_by_id (objs : List RoomObject) : List (String × (ℚ × ℚ)) :=
  objs.map (fun o => (asciiLower o.id, (o.px, o.py)))

/-- Minimum of a list of rationals (`min(xs)` in Python, `none` on `[]`). -/
def listMin (l : List ℚ) : Option ℚ :=
  match l with
  | [] => none
  | x :: xs => some (xs.foldl min x)

/-- Maximum of a list of rationals (`max(xs)` in Python, `none` on `[]`). -/
def listMax (l : List ℚ) : Option ℚ :=
  match l with
  | [] => none
  | x :: xs => some (xs.foldl max x)

/-- The fallback room bounds derived from the original object positions
padded by `0.35` on every side, used when no floor-mesh bounds are available.
(A `room_request` of `None` behaves exactly like an empty object list here, so
both are modelled by `objs = []`.) -/
def fallback_bounds (objs : List RoomObject) : Option (ℚ × ℚ × ℚ × ℚ) :=
  let xs := (orig_pos_by_id objs).map (fun p => p.2.1)
  let ys := (orig_pos_by_id objs).map (fun p => p.2.2)
  match listMin xs, listMax xs, listMin ys, listMax ys with
  | some a, some b, some c, some d => some (a - 35/100, b + 35/100, c - 35/100, d + 35/100)
  | _, _, _, _ => none

/-- The `room_bounds` value as seen by the sanitizer: the floor-mesh plan bounds when
detected, otherwise the padded object-position bounds. -/
def effective_bounds (objs : List RoomObject) (planBounds : Option (ℚ × ℚ × ℚ × ℚ)) :
    Option (ℚ × ℚ × ℚ × ℚ) :=
  match planBounds with
  | some b => some b
  | none => fallback_bounds objs

/-! ### Cleaning pass -/

/-- The cleaning loop of `_normalize_and_spread_transformations`: drop any
proposal whose stripped id is empty, whose `new_position` is not a dict, or
whose `x`/`y` coordinate is missing (or uncoercible) — never substituting a
default.  Rotation is coerced if present (uncoercible values are popped,
i.e. become `none`). -/
def clean_proposals (ts : List Proposal) : List SanitizedRelocation :=
  ts.filterMap (fun t =>
    let objId := pyStrip t.object_id
    if objId = "" then none
    else if ¬ t.has_pos then none
    else
      match t.pos_x, t.pos_y with
      | some x, some y => some ⟨objId, x, y, t.rot, t.score⟩
      | _, _ => none)

/-! ### Collapse detection -/

/-- Floor of a rational as an integer, computed with `Int.fdiv` (floored
integer division). -/
def ratFloor (q : ℚ) : ℤ :=
  Int.fdiv q.num (Int.ofNat q.den)

/-- Model of Python's built-in `round` on a float: round half to even. -/
def pyRound (q : ℚ) : ℤ :=
  let f := ratFloor q
  let r := q - (f : ℚ)
  if r < 1/2 then f
  else if 1/2 < r then f + 1
  else if f % 2 = 0 then f else f + 1

/-- The `pos_key` bucketing: bucket a position to ~2 cm, `(round(x*50), round(y*50))`. -/
def pos_key (x y : ℚ) : ℤ × ℤ :=
  (pyRound (x * 50), pyRound (y * 50))

/-- The type the sanitizer assigns to a cleaned proposal (`type_by_id` lookup
of the lowercased id, defaulting to `""`). -/
def sanType (objs : List RoomObject) (t : SanitizedRelocation) : String :=
  (dictLookup (type_by_id objs) (asciiLower t.object_id)).getD ""

/-- Number of distinct ~2 cm position buckets among a group's targets
(`len({pos_key(t["new_position"]) for t in ts})`). -/
def uniqCount (g : List SanitizedRelocation) : ℕ :=
  ((g.map (fun t => pos_key t.px t.py)).dedup).length

/-- Whether the group-collapse heuristic fires for the type group `g`:
at least two members; the type is crowd-prone (`chair`/`desk`) or the group
has at least four members; the number of distinct bucketed targets is at most
`max 1 (len // 6)`; and every member has a known original position. -/
def collapse_applies (objs : List RoomObject) (ty : String)
    (g : List SanitizedRelocation) : Bool :=
  2 ≤ g.length
    ∧ (ty = "chair" ∨ ty = "desk" ∨ 4 ≤ g.length)
    ∧ uniqCount g ≤ max 1 (g.length / 6)
    ∧ g.all (fun t => (dictLookup (orig_pos_by_id objs) (asciiLower t.object_id)).isSome)

/-- The uniform group translation `delta = mean(targets) − mean(originals)`
for the group `g` (the group is nonempty and has all originals known whenever
this is used; the `getD` defaults are unreachable then). -/
def group_delta (objs : List RoomObject) (g : List SanitizedRelocation) : ℚ × ℚ :=
  let n : ℚ := g.length
  let tx := (g.map (fun t => t.px)).sum / n
  let ty := (g.map (fun t => t.py)).sum / n
  let origs := g.map (fun t =>
    (dictLookup (orig_pos_by_id objs) (asciiLower t.object_id)).getD (0, 0))
  let ox := (origs.map Prod.fst).sum / n
  let oy := (origs.map Prod.snd).sum / n
  (tx - ox, ty - oy)

/-- The in-place update applied to one member of a collapsing group:
`new_position = original_position + delta`. -/
def collapse_translate (objs : List RoomObject) (g : List SanitizedRelocation)
    (t : SanitizedRelocation) : SanitizedRelocation :=
  let d := group_delta objs g
  let op := (dictLookup (orig_pos_by_id objs) (asciiLower t.object_id)).getD (0, 0)
  { t with px := op.1 + d.1, py := op.2 + d.2 }

/-- The collapse pass: the source groups the cleaned list by (nonempty)
looked-up type in a dict and rewrites each qualifying group in place.  Since
the groups are disjoint, this is the same as mapping every element: if its
type group qualifies, its target becomes `original + delta` for that group's
`delta`; otherwise it is untouched. -/
def collapse_phase (objs : List RoomObject) (cleaned : List SanitizedRelocation) :
    List SanitizedRelocation :=
  cleaned.map (fun t =>
    let ty := sanType objs t
    if ty = "" then t
    else
      let g := cleaned.filter (fun u => sanType objs u = ty)
      if collapse_applies objs ty g then collapse_translate objs g t
      else t)

/-! ### Clamping -/

/-- Clamp a single coordinate: `min(max(v, lo), hi)`. -/
def clamp1 (lo hi v : ℚ) : ℚ :=
  min (max v lo) hi

/-- The per-object extra wall clearance: desks/tables get `0.25`, everything
else (e.g. chairs) `0.12`. -/
def extra_clearance (ty : String) : ℚ :=
  if ty = "desk" ∨ ty = "table" then 25/100 else 12/100

/-- The wall margin for the object with (lowercased) id `key`:
`max(length, width) / 2 + extra_clearance`, with the `(0.8, 0.8)` default
footprint for unknown ids. -/
def wall_margin (objs : List RoomObject) (key : String) : ℚ :=
  let dims := (dictLookup (dims_by_id objs) key).getD (8/10, 8/10)
  max dims.1 dims.2 / 2 + extra_clearance ((dictLookup (type_by_id objs) key).getD "")

/-- Model of `clamp_to_room`: restrict a position into the room bounds, leaving the
wall margin on every side; identity when no bounds are known. -/
def clamp_to_room (objs : List RoomObject) (planBounds : Option (ℚ × ℚ × ℚ × ℚ))
    (key : String) (p : ℚ × ℚ) : ℚ × ℚ :=
  match effective_bounds objs planBounds with
  | none => p
  | some (minX, maxX, minY, maxY) =>
    let m := wall_margin objs key
    (clamp1 (minX + m) (maxX - m) p.1, clamp1 (minY + m) (maxY - m) p.2)

/-- The first clamping pass over all cleaned targets. -/
def clamp_phase (objs : List RoomObject) (planBounds : Option (ℚ × ℚ × ℚ × ℚ))
    (cleaned : List SanitizedRelocation) : List SanitizedRelocation :=
  cleaned.map (fun t =>
    let c := clamp_to_room objs planBounds (asciiLower t.object_id) (t.px, t.py)
    { t with px := c.1, py := c.2 })

/-! ### De-overlap (spiral spread) -/

/-- The base separation radius for the object with (lowercased) id `key`:
`max(length, width, 0.6) * 0.55`. -/
def base_sep (objs : List RoomObject) (key : String) : ℚ :=
  let dims := (dictLookup (dims_by_id objs) key).getD (8/10, 8/10)
  max (max dims.1 dims.2) (6/10) * (55/100)

/-- Squared Euclidean distance (the source compares `math.hypot` distances
against nonnegative separations, which is equivalent to comparing squares). -/
def distSq (a b : ℚ × ℚ) : ℚ :=
  (a.1 - b.1) ^ 2 + (a.2 - b.2) ^ 2

/-- Collision test of a candidate against the accepted `(x, y, min_dist)`
triples: `any(dist(candidate, (tx, ty)) < max(base_sep, md))`. -/
def collidesWith (taken : List (ℚ × ℚ × ℚ)) (cand : ℚ × ℚ) (sep : ℚ) : Bool :=
  taken.any (fun e => distSq cand (e.1, e.2.1) < (max sep e.2.2) ^ 2)

/-- The eight compass directions `(cos θ, sin θ)` for
θ = 0°, 90°, 180°, 270°, 45°, 135°, 225°, 315°, in the source's trial order.
The doubles `math.cos(math.radians θ)` are modelled by exact rationals:
`±0.7071067811865476` for the diagonals and exact `0`/`±1` on the axes (the
source's axis values differ from these by at most `2e-16`, which never
affects a comparison at the metre scale of this engine). -/
def compass_dirs : List (ℚ × ℚ) :=
  [(1, 0), (0, 1), (-1, 0), (0, -1),
   (7071067811865476/10000000000000000, 7071067811865476/10000000000000000),
   (-7071067811865476/10000000000000000, 7071067811865476/10000000000000000),
   (-7071067811865476/10000000000000000, -7071067811865476/10000000000000000),
   (7071067811865476/10000000000000000, -7071067811865476/10000000000000000)]

/-- The bounded spiral search: rings `1..24` of radius `base_sep * ring`,
eight compass angles per ring, every candidate re-clamped into bounds;
returns the first conflict-free point, if any. -/
def spiral_search (objs : List RoomObject) (planBounds : Option (ℚ × ℚ × ℚ × ℚ))
    (taken : List (ℚ × ℚ × ℚ)) (key : String) (x y sep : ℚ) : Option (ℚ × ℚ) :=
  (List.range' 1 24).findSome? (fun ring =>
    compass_dirs.findSome? (fun dir =>
      let r := sep * (ring : ℚ)
      let cand := clamp_to_room objs planBounds key (x + r * dir.1, y + r * dir.2)
      if collidesWith taken cand sep then none else some cand))

/-- The candidate position the de-overlap loop settles on for `t` against the
already accepted triples: the (already clamped) target if conflict-free,
otherwise the spiral-search result, otherwise the clamped original position
(when the id is known), otherwise the target unchanged. -/
def spread_candidate (objs : List RoomObject) (planBounds : Option (ℚ × ℚ × ℚ × ℚ))
    (taken : List (ℚ × ℚ × ℚ)) (t : SanitizedRelocation) : ℚ × ℚ :=
  if collidesWith taken (t.px, t.py) (base_sep objs (asciiLower t.object_id)) then
    match spiral_search objs planBounds taken (asciiLower t.object_id) t.px t.py
        (base_sep objs (asciiLower t.object_id)) with
    | some c => c
    | none =>
      match dictLookup (orig_pos_by_id objs) (asciiLower t.object_id) with
      | some op => clamp_to_room objs planBounds (asciiLower t.object_id) op
      | none => (t.px, t.py)
  else (t.px, t.py)

/-- One step of the de-overlap loop: settle on a candidate, re-clamp it, and
record the accepted `(x, y, base_sep)` triple alongside the updated
relocation. -/
def spread_step (objs : List RoomObject) (planBounds : Option (ℚ × ℚ × ℚ × ℚ))
    (acc : List (ℚ × ℚ × ℚ) × List SanitizedRelocation) (t : SanitizedRelocation) :
    List (ℚ × ℚ × ℚ) × List SanitizedRelocation :=
  let fin := clamp_to_room objs planBounds (asciiLower t.object_id)
    (spread_candidate objs planBounds acc.1 t)
  (acc.1 ++ [(fin.1, fin.2, base_sep objs (asciiLower t.object_id))],
    acc.2 ++ [{ t with px := fin.1, py := fin.2 }])

/-- The full de-overlap pass. -/
def spread_phase (objs : List RoomObject) (planBounds : Option (ℚ × ℚ × ℚ × ℚ))
    (cleaned : List SanitizedRelocation) : List SanitizedRelocation :=
  (cleaned.foldl (spread_step objs planBounds) ([], [])).2

/-- Model of `_normalize_and_spread_transformations`: clean, collapse
degenerate same-type groups, clamp into bounds, then de-overlap. -/
def normalize_and_spread_transformations (ts : List Proposal)
    (objs : List RoomObject) (planBounds : Option (ℚ × ℚ × ℚ × ℚ)) :
    List SanitizedRelocation :=
  if ts.isEmpty then []
  else
    let cleaned := clean_proposals ts
    if cleaned.isEmpty then []
    else spread_phase objs planBounds (clamp_phase objs planBounds (collapse_phase objs cleaned))

/-! ### Numeric formatting (`_generate_transform_line.format_num`) -/

/-- Whether the string contains a decimal point. -/
def hasDot (s : String) : Bool :=
  s.data.any (fun c => c = '.')

/-- Strip trailing occurrences of one character (`str.rstrip(c)`). -/
def stripTrailing (c : Char) (s : String) : String :=
  ⟨(s.data.reverse.dropWhile (fun d => d = c)).reverse⟩

/-- Left-pad the decimal digits of `n` with zeros to `width` characters. -/
def padZeros (width : ℕ) (n : ℕ) : String :=
  let s := toString n
  ⟨List.replicate (width - s.length) '0' ++ s.data⟩

/-- Model of `f"{val:.10f}"`: fixed-point rendering with exactly ten
fractional digits, rounding half to even (ties are resolved on the absolute
value; no value in this development sits on a tie). -/
def formatFixed10 (q : ℚ) : String :=
  let sign := if q < 0 then "-" else ""
  let scaled := (pyRound (|q| * 10 ^ 10)).toNat
  sign ++ toString (scaled / 10 ^ 10) ++ "." ++ padZeros 10 (scaled % 10 ^ 10)

/-- Model of `format_num`: whole numbers render as `"N.0"`; other values are
rendered with ten fractional digits, trailing zeros stripped, then a trailing
dot stripped, and `".0"` appended if no decimal point survived. -/
def format_num (q : ℚ) : String :=
  if q.den = 1 then toString q.num ++ ".0"
  else
    let s := stripTrailing '.' (stripTrailing '0' (formatFixed10 q))
    if hasDot s then s else s ++ ".0"

/-! ### Emitted transform lines -/

/-- Model of Python `str()` on a float whose exact value has a terminating
decimal expansion of at most 17 digits: minimal decimal digits with at least
one fractional digit (`3.0`, `2.5`).  Values without such an expansion are
rendered with 17 fixed fractional digits — an approximation of `repr`'s
shortest round-trip digits that is irrelevant to every theorem below (only
the template literals of the emitted lines are at issue). -/
def pyFloatStr (q : ℚ) : String :=
  let sign := if q < 0 then "-" else ""
  match (List.range 18).find? (fun k => 10 ^ k % q.den = 0) with
  | some k =>
    let n := (|q| * 10 ^ k).num.toNat
    let frac := stripTrailing '0' (padZeros k (n % 10 ^ k))
    sign ++ toString (n / 10 ^ k) ++ "." ++ (if frac = "" then "0" else frac)
  | none =>
    let scaled := (pyRound (|q| * 10 ^ 17)).toNat
    sign ++ toString (scaled / 10 ^ 17) ++ "." ++ padZeros 17 (scaled % 10 ^ 17)

/-- The numeric literals interpolated into the discrete
translate/rotate/scale form, in emission order.  The translate line is
`f"double3 xformOp:translate = ({x}, {y}, {z})"`, the rotation line is
`f"double3 xformOp:rotateXYZ = (0, 0, {rot})"` — its first two components are
the template's bare `0`s — and the scale line (emitted only when the original
block had a scale op) interpolates the preserved scale vector. -/
def discrete_tokens (x y z rot : ℚ) (scale : ℚ × ℚ × ℚ) (hasScale : Bool) :
    List String :=
  [pyFloatStr x, pyFloatStr y, pyFloatStr z]
    ++ ["0", "0", pyFloatStr rot]
    ++ (if hasScale then [pyFloatStr scale.1, pyFloatStr scale.2.1, pyFloatStr scale.2.2] else [])

/-- The sixteen numeric literals of the synthesized row-major matrix form, in
emission order.  `cosr`/`sinr` stand for the floats `cos(radians(rot))` and
`sin(radians(rot))` (arbitrary here, since the emitted-literal properties
hold for every value). -/
def matrix_tokens (sx sy sz cosr sinr x y z : ℚ) : List String :=
  [format_num (sx * cosr), "0.0", format_num (-(sx * sinr)), "0.0",
   "0.0", format_num sy, "0.0", "0.0",
   format_num (sz * sinr), "0.0", format_num (sz * cosr), "0.0",
   format_num x, format_num y, format_num z, "1.0"]

/-- The parsed existing transform of an entity block
(`_parse_existing_transform` output fields used by the writer). -/
structure ExistingTransform where
  has_matrix : Bool
  has_translate : Bool
  has_rotate : Bool
  has_scale : Bool
  scale : ℚ × ℚ × ℚ
  translate : ℚ × ℚ × ℚ
deriving DecidableEq, Repr

/-- The numeric literals `_generate_transform_line` emits: the discrete form
when the existing transform used any discrete op, otherwise the matrix form.
The vertical coordinate is the preserved existing `translate` Y, clamped to
at least `floor_y + 0.01` when a floor level is known. -/
def generate_transform_tokens (newx newy rot : ℚ) (ex : ExistingTransform)
    (floorY : Option ℚ) (cosr sinr : ℚ) : List String :=
  let y0 := ex.translate.2.1
  let y := match floorY with
    | some fy => max y0 (fy + 1/100)
    | none => y0
  if ex.has_translate || ex.has_rotate || ex.has_scale then
    discrete_tokens newx y newy rot ex.scale ex.has_scale
  else
    matrix_tokens ex.scale.1 ex.scale.2.1 ex.scale.2.2 cosr sinr newx y newy

/-! ### The transform map of `_modify_usda_file` -/

/-- Python dict insertion on an association list: replace the value in place
when the key exists, append otherwise. -/
def dictInsert {α : Type} (m : List (String × α)) (k : String) (v : α) :
    List (String × α) :=
  if m.any (fun p => p.1 = k) then m.map (fun p => if p.1 = k then (k, v) else p)
  else m ++ [(k, v)]

/-- The `transform_map` built by `_modify_usda_file`: keyed by the stripped,
lowercased object id; proposals with an empty id are skipped; a later
proposal with the same key overwrites an earlier one. -/
def build_transform_map (ts : List SanitizedRelocation) :
    List (String × SanitizedRelocation) :=
  ts.foldl (fun m t =>
    let objId := pyStrip t.object_id
    if objId = "" then m else dictInsert m (asciiLower objId) t) []

/-! ### `_apply_transformations`: control flow and repackaging -/

/-- The filesystem- and archive-dependent outcomes of the fallible stages of
`_apply_transformations`, one field per stage of the source in order:
existence/size/zip-validity checks, extraction, presence of USD files, the
USD-modification loop (its `try` block, whose failure is caught and answered
with the original bytes), and repackaging-plus-validation (its `try` block,
including the post-assembly `testzip` integrity check, likewise caught). -/
structure ApplyEnv where
  originalBytes : List ℕ
  fileExists : Bool
  fileSize : ℕ
  isZipFile : Bool
  extractOutcome : Except String Unit
  hasUsdFiles : Bool
  modifyOutcome : Except String ℕ
  repackOutcome : Except String (List ℕ)

/-- Control-flow model of `_apply_transformations`: cap crowd-prone
transforms; with an empty list return the original bytes; re-raise
pre-extraction errors; return the original bytes when no USD files are found,
when the modification loop raises, or when repackaging/validation raises;
otherwise return the repackaged bytes. -/
def apply_transformations (env : ApplyEnv) (room : Option (List RoomObject))
    (suggestions : List Proposal) : Except String (List ℕ) :=
  let transformations := cap_transformations_for_crowded_scenes suggestions room
  if transformations.isEmpty then .ok env.originalBytes
  else if env.fileExists = false then .error "USDZ file not found"
  else if env.fileSize = 0 then .error "USDZ file is empty"
  else if env.isZipFile = false then .error "File is not a valid .usdz (zip) archive"
  else
    match env.extractOutcome with
    | .error e => .error e
    | .ok _ =>
      if env.hasUsdFiles = false then .ok env.originalBytes
      else
        match env.modifyOutcome with
        | .error _ => .ok env.originalBytes
        | .ok _ =>
          match env.repackOutcome with
          | .error _ => .ok env.originalBytes
          | .ok bytes => .ok bytes

/-- Compression method of an emitted archive entry. -/
inductive CompressMethod where
  | stored
  | deflated
deriving DecidableEq, Repr

/-- One entry written into the rebuilt archive. -/
structure OutEntry where
  name : String
  data : List ℕ
  method : CompressMethod
deriving DecidableEq, Repr

/-- Model of the re-zip loops of `_apply_transformations` (step 4): first
every name of the original archive's `namelist()`, in order, whose file
exists in the working directory, stored uncompressed under its original name;
then every working-directory file (in the sorted `rglob` iteration order the
list models) that is not the output archive itself and was absent from the
original name list, appended, also stored.  `workdir` maps an archive-style
name to the bytes of the extracted (possibly edited) file. -/
def repack_entries (originalList : List String) (workdir : List (String × List ℕ)) :
    List OutEntry :=
  (originalList.filterMap (fun n =>
    (dictLookup workdir n).map (fun d => OutEntry.mk n d .stored)))
    ++ ((workdir.filter (fun p => ¬ originalList.contains p.1 ∧ p.1 ≠ "optimized.usdz")).map
        (fun p => OutEntry.mk p.1 p.2 .stored))

/-! ### Derived predicates used by the theorems -/

/-- The ceiling division `⌈a / b⌉` the spec's collapse threshold refers to. -/
def nat_ceil_div (a b : ℕ) : ℕ :=
  (a + b - 1) / b

/-- The separation radius of a relocation's object. -/
def reloc_sep (objs : List RoomObject) (t : SanitizedRelocation) : ℚ :=
  base_sep objs (asciiLower t.object_id)

/-- A relocation whose position is a fixed point of its own clamp (every
position that has passed through `clamp_to_room` satisfies this). -/
def clampFixed (objs : List RoomObject) (pb : Option (ℚ × ℚ × ℚ × ℚ))
    (t : SanitizedRelocation) : Prop :=
  clamp_to_room objs pb (asciiLower t.object_id) (t.px, t.py) = (t.px, t.py)

instance (objs : List RoomObject) (pb : Option (ℚ × ℚ × ℚ × ℚ))
    (t : SanitizedRelocation) : Decidable (clampFixed objs pb t) :=
  inferInstanceAs (Decidable (_ = _))

/-- Two relocations at least their required separation apart (squared-distance
form of the source's `dist(a, b) >= max(sep_a, sep_b)`). -/
def well_separated (objs : List RoomObject) (a b : SanitizedRelocation) : Prop :=
  max (reloc_sep objs a) (reloc_sep objs b) ^ 2 ≤ distSq (a.px, a.py) (b.px, b.py)

instance (objs : List RoomObject) : DecidableRel (well_separated objs) :=
  fun _ _ => inferInstanceAs (Decidable (_ ≤ _))

/-- The pairwise guarantee the de-overlap pass actually provides for a pair
`(a, b)` with `a` placed before `b`: either the pair is separated, or `b` was
placed at its *clamped* original position — the fallback — whenever its id has
a known original position (ids with no known original keep their clamped
proposed target, possibly overlapping). -/
def sepOrFallback (objs : List RoomObject) (pb : Option (ℚ × ℚ × ℚ × ℚ))
    (a b : SanitizedRelocation) : Prop :=
  well_separated objs a b
    ∨ ∀ op, dictLookup (orig_pos_by_id objs) (asciiLower b.object_id) = some op →
        (b.px, b.py) = clamp_to_room objs pb (asciiLower b.object_id) op

/-! ### Concrete scenarios used by witnesses and counterexamples -/

/-- C1 witness environment: every stage reaches the modification loop, which
raises. -/
def c1w_env : ApplyEnv :=
  ⟨[1, 2, 3], true, 3, true, .ok (), true, .error "boom", .ok [9]⟩

/-- C2 counterexample room: a single 2 m × 2 m chair scanned at the origin,
so the fallback bounds span only `[-0.35, 0.35]²` while the wall margin is
`1.12`: the clamp interval is empty. -/
def c2x_objs : List RoomObject := [⟨"c1", "chair", 0, 0, 2, 2⟩]

/-- C2 counterexample proposal list. -/
def c2x_ts : List Proposal := [⟨"c1", true, some 10, some 10, none, 0⟩]

/-- C2 witness room: a modest chair in a generously scanned room. -/
def c2w_objs : List RoomObject :=
  [⟨"c1", "chair", 0, 0, 1/2, 1/2⟩, ⟨"s1", "sofa", -4, -4, 1, 1⟩, ⟨"s2", "sofa", 6, 6, 1, 1⟩]

/-- C2 witness proposal list. -/
def c2w_ts : List Proposal := [⟨"c1", true, some 2, some 2, none, 0⟩]

/-- C3 witness room: ten chairs (original centroid `(4, 5)`) plus two distant
sofas that widen the fallback bounds. -/
def c3w_objs : List RoomObject :=
  [⟨"c0", "chair", 2, 5, 2/5, 2/5⟩, ⟨"c1", "chair", 6, 5, 2/5, 2/5⟩,
   ⟨"c2", "chair", 4, 3, 2/5, 2/5⟩, ⟨"c3", "chair", 4, 7, 2/5, 2/5⟩,
   ⟨"c4", "chair", 3, 4, 2/5, 2/5⟩, ⟨"c5", "chair", 5, 6, 2/5, 2/5⟩,
   ⟨"c6", "chair", 3, 6, 2/5, 2/5⟩, ⟨"c7", "chair", 5, 4, 2/5, 2/5⟩,
   ⟨"c8", "chair", 2, 3, 2/5, 2/5⟩, ⟨"c9", "chair", 6, 7, 2/5, 2/5⟩,
   ⟨"s1", "sofa", -5, -5, 1, 1⟩, ⟨"s2", "sofa", 15, 15, 1, 1⟩]

/-- C3 witness proposals: all ten chairs target `(5, 5)`. -/
def c3w_ts : List Proposal :=
  ["c0", "c1", "c2", "c3", "c4", "c5", "c6", "c7", "c8", "c9"].map
    (fun i => ⟨i, true, some 5, some 5, none, 0⟩)

/-- C3 counterexample room: seven chairs in a row plus two distant sofas. -/
def c3x_objs : List RoomObject :=
  [⟨"d0", "chair", 0, 0, 2/5, 2/5⟩, ⟨"d1", "chair", 1, 0, 2/5, 2/5⟩,
   ⟨"d2", "chair", 2, 0, 2/5, 2/5⟩, ⟨"d3", "chair", 3, 0, 2/5, 2/5⟩,
   ⟨"d4", "chair", 4, 0, 2/5, 2/5⟩, ⟨"d5", "chair", 5, 0, 2/5, 2/5⟩,
   ⟨"d6", "chair", 6, 0, 2/5, 2/5⟩,
   ⟨"s1", "sofa", -5, -5, 1, 1⟩, ⟨"s2", "sofa", 15, 15, 1, 1⟩]

/-- C3 counterexample proposals: four chairs target `(5, 5)`, three target
`(6, 6)` — two distinct buckets, which is within the claim's
`ceil(7/6) = 2` threshold but above the code's `max(1, 7 // 6) = 1`. -/
def c3x_ts : List Proposal :=
  (["d0", "d1", "d2", "d3"].map (fun i => (⟨i, true, some 5, some 5, none, 0⟩ : Proposal)))
    ++ (["d4", "d5", "d6"].map (fun i => (⟨i, true, some 6, some 6, none, 0⟩ : Proposal)))

/-- C4 counterexample room: two oversized chairs in a tiny scan, making the
clamp intervals empty, so the whole spiral collapses to one point. -/
def c4x_objs : List RoomObject :=
  [⟨"a", "chair", 0, 0, 2, 2⟩, ⟨"b", "chair", 1/5, 0, 2, 2⟩]

/-- C4 counterexample proposals: both chairs target `(5, 5)`. -/
def c4x_ts : List Proposal :=
  [⟨"a", true, some 5, some 5, none, 0⟩, ⟨"b", true, some 5, some 5, none, 0⟩]

/-- C5 witness: a proposal whose `new_position` is missing its `y`
coordinate. -/
def c5w_bad : Proposal := ⟨"obj9", true, some 4, none, none, 0⟩

/-- C5 witness: surrounding valid proposals. -/
def c5w_l1 : List Proposal := [⟨"obj1", true, some 1, some 1, none, 0⟩]

/-- C5 witness: trailing valid proposals. -/
def c5w_l2 : List Proposal := [⟨"obj2", true, some 3, some 2, none, 0⟩]

/-- C6 counterexample proposals: two valid proposals sharing the unknown id
`"a"`. -/
def c6x_ts : List Proposal :=
  [⟨"a", true, some 1, some 1, none, 0⟩, ⟨"a", true, some 9, some 9, none, 0⟩]

/-- C8 witness original entry list. -/
def c8w_names : List String := ["A", "B", "C"]

/-- C8 witness working directory (one new file `D`). -/
def c8w_workdir : List (String × List ℕ) :=
  [("A", [1]), ("B", [2]), ("C", [3]), ("D", [4])]

/-- C10 witness room: two chairs, one desk, one lamp. -/
def c10w_objs : List RoomObject :=
  [⟨"k1", "chair", 0, 0, 1, 1⟩, ⟨"k2", "chair", 1, 0, 1, 1⟩,
   ⟨"k3", "desk", 2, 0, 1, 1⟩, ⟨"k4", "lamp", 3, 0, 1, 1⟩]

/-- C10 witness proposals: two chair proposals (scores 2 and 5), one desk,
one lamp. -/
def c10w_ts : List Proposal :=
  [⟨"k1", true, some 1, some 1, none, 2⟩, ⟨"k2", true, some 2, some 2, none, 5⟩,
   ⟨"k3", true, some 3, some 3, none, 1⟩, ⟨"k4", true, some 4, some 4, none, 0⟩]

/-! ## Foundational lemmas -/

theorem foldl_invariant {α σ : Type} (step : σ → α → σ) (P : σ → Prop) (Q : α → Prop)
    (h : ∀ s a, P s → Q a → P (step s a)) :
    ∀ (l : List α) (s : σ), P s → (∀ a ∈ l, Q a) → P (l.foldl step s) := by
  intro l
  induction l with
  | nil => exact fun s hs _ => hs
  | cons a tl ih =>
    intro s hs hq
    exact ih (step s a) (h s a hs (hq a (List.mem_cons_self a tl)))
      (fun x hx => hq x (List.mem_cons_of_mem a hx))

theorem clamp1_idem (lo hi v : ℚ) : clamp1 lo hi (clamp1 lo hi v) = clamp1 lo hi v := by
  simp only [clamp1, min_def, max_def]
  split_ifs <;> linarith

theorem clamp1_lo_le (lo hi v : ℚ) (h : lo ≤ hi) : lo ≤ clamp1 lo hi v :=
  le_min (le_trans (le_max_right v lo) (le_refl _)) h

theorem clamp1_le_hi (lo hi v : ℚ) : clamp1 lo hi v ≤ hi :=
  min_le_right _ _

theorem clamp_to_room_idem (objs : List RoomObject) (pb : Option (ℚ × ℚ × ℚ × ℚ))
    (key : String) (p : ℚ × ℚ) :
    clamp_to_room objs pb key (clamp_to_room objs pb key p) = clamp_to_room objs pb key p := by
  unfold clamp_to_room
  cases h : effective_bounds objs pb with
  | none => rfl
  | some b =>
    obtain ⟨mnx, mxx, mny, mxy⟩ := b
    simp [clamp1_idem]

theorem distSq_comm (a b : ℚ × ℚ) : distSq a b = distSq b a := by
  simp only [distSq]
  ring

theorem spiral_search_spec (objs : List RoomObject) (pb : Option (ℚ × ℚ × ℚ × ℚ))
    (taken : List (ℚ × ℚ × ℚ)) (key : String) (x y sep : ℚ) (c : ℚ × ℚ)
    (h : spiral_search objs pb taken key x y sep = some c) :
    (∃ p, c = clamp_to_room objs pb key p) ∧ collidesWith taken c sep = false := by
  unfold spiral_search at h
  obtain ⟨ring, -, hring⟩ := List.exists_of_findSome?_eq_some h
  obtain ⟨dir, -, hdir⟩ := List.exists_of_findSome?_eq_some hring
  dsimp only at hdir
  split at hdir
  · exact absurd hdir (by simp)
  · rename_i hcol
    obtain rfl : _ = c := Option.some.inj hdir
    exact ⟨⟨_, rfl⟩, by simpa using hcol⟩

/-! ## C9 — empty proposal list returns the original bytes -/

/-- C9: `optimize(archive, [])` returns bytes identical to the input archive:
with an empty transformation list `_apply_transformations` (after the cap,
which leaves an empty list empty) immediately re-reads and returns the
original archive bytes, for every environment and room request. -/
theorem optimize_empty_transformations_returns_original
    (env : ApplyEnv) (room : Option (List RoomObject)) :
    apply_transformations env room [] = Except.ok env.originalBytes := by
  cases room <;> rfl

/-! ## C1 — any modification/repackaging error falls back to the original bytes -/

/-- C1: if every stage up to extraction succeeds and then the USD-modification
loop or the repackaging/validation step raises, `_apply_transformations`
returns exactly the original archive's bytes; moreover every successful
result is either the original bytes or the bytes of a successfully validated
repack — never a partially edited archive. -/
theorem apply_transformations_error_returns_original_bytes :
    (∀ (env : ApplyEnv) (room : Option (List RoomObject)) (suggestions : List Proposal),
      env.fileExists = true →
      env.fileSize ≠ 0 →
      env.isZipFile = true →
      env.extractOutcome = Except.ok () →
      env.hasUsdFiles = true →
      ((∃ e, env.modifyOutcome = Except.error e) ∨ (∃ e, env.repackOutcome = Except.error e)) →
      apply_transformations env room suggestions = Except.ok env.originalBytes)
    ∧ (∀ (env : ApplyEnv) (room : Option (List RoomObject)) (suggestions : List Proposal)
        (b : List ℕ),
      apply_transformations env room suggestions = Except.ok b →
      b = env.originalBytes ∨ env.repackOutcome = Except.ok b) := by
  constructor
  · intro env room suggestions h1 h2 h3 h4 h5 h6
    rcases h6 with ⟨e, he⟩ | ⟨e, he⟩
    · simp [apply_transformations, h1, h2, h3, h4, h5, he]
    · cases hm : env.modifyOutcome with
      | error e2 => simp [apply_transformations, h1, h2, h3, h4, h5, hm]
      | ok n => simp [apply_transformations, h1, h2, h3, h4, h5, hm, he]
  · intro env room suggestions b h
    obtain ⟨ob, fe, fs, iz, eo, hu, mo, ro⟩ := env
    by_cases hc : (cap_transformations_for_crowded_scenes suggestions room).isEmpty <;>
      cases fe <;> cases iz <;> cases hu <;> cases eo <;> cases mo <;> cases ro <;>
      by_cases hfs : fs = 0 <;>
      simp_all [apply_transformations]

/-- C1 witness: a concrete environment whose modification stage raises; the
result is the original bytes. -/
theorem apply_transformations_error_returns_original_bytes_witness :
    c1w_env.fileExists = true ∧ c1w_env.fileSize ≠ 0 ∧ c1w_env.isZipFile = true
      ∧ c1w_env.extractOutcome = Except.ok () ∧ c1w_env.hasUsdFiles = true
      ∧ (∃ e, c1w_env.modifyOutcome = Except.error e)
      ∧ apply_transformations c1w_env none [⟨"x", true, some 1, some 1, none, 0⟩]
          = Except.ok c1w_env.originalBytes :=
  ⟨rfl, by decide, rfl, rfl, rfl, ⟨"boom", rfl⟩,
    apply_transformations_error_returns_original_bytes.1 c1w_env none
      [⟨"x", true, some 1, some 1, none, 0⟩] rfl (by decide) rfl rfl rfl
      (Or.inl ⟨"boom", rfl⟩)⟩

/-! ## C7 — numeric formatting of emitted literals -/

theorem hasDot_append (a b : String) : hasDot (a ++ b) = (hasDot a || hasDot b) := by
  simp [hasDot, String.data_append, List.any_append]

theorem format_num_hasDot (q : ℚ) : hasDot (format_num q) = true := by
  unfold format_num
  split
  · rw [hasDot_append]
    simp [hasDot]
  · dsimp only
    by_cases hd : hasDot (stripTrailing '.' (stripTrailing '0' (formatFixed10 q))) = true
    · rw [if_pos hd]
      exact hd
    · rw [if_neg hd, hasDot_append]
      simp [hasDot]

/-- C7 (amended): the number formatter satisfies `format(1) = "1.0"`,
`format(2.5) = "2.5"` and `format(2.50000000001) = "2.5"`, and every numeric
literal of the emitted matrix form carries a decimal point; the discrete form
does *not* share this guarantee (its rotation line hardcodes two bare `0`
literals — see the counterexample). -/
theorem format_num_decimal_point_spec :
    format_num 1 = "1.0" ∧ format_num (5/2) = "2.5"
      ∧ format_num (250000000001/100000000000) = "2.5"
      ∧ ∀ sx sy sz cosr sinr x y z : ℚ,
          (matrix_tokens sx sy sz cosr sinr x y z).all hasDot = true := by
  refine ⟨by with_unfolding_all decide, by with_unfolding_all decide,
    by with_unfolding_all decide, ?_⟩
  intro sx sy sz cosr sinr x y z
  simp only [matrix_tokens, List.all_cons, List.all_nil, format_num_hasDot,
    Bool.true_and, Bool.and_true]
  decide

/-- C7 counterexample: the discrete translate/rotate/scale form emits the
rotation line `double3 xformOp:rotateXYZ = (0, 0, …)`, whose first two
numeric literals are the bare integer `0`, without a decimal point — so the
claim's "this holds for all numeric literals in … the discrete
translate/rotate/scale form" is false. -/
theorem discrete_form_bare_zero_counterexample :
    "0" ∈ generate_transform_tokens 2 3 90
        ⟨false, true, false, false, (1, 1, 1), (0, 1/2, 0)⟩ none 0 1
      ∧ hasDot "0" = false := by
  with_unfolding_all decide

/-! ## C8 — repackaging preserves order, names, and the store method -/

theorem filterMap_lookup_names (workdir : List (String × List ℕ)) :
    ∀ l : List String, (∀ n ∈ l, (dictLookup workdir n).isSome = true) →
      ((l.filterMap (fun n => (dictLookup workdir n).map
          (fun d => OutEntry.mk n d .stored))).map (fun e => e.name)) = l := by
  intro l
  induction l with
  | nil => intro _; rfl
  | cons a tl ih =>
    intro h
    rw [List.filterMap_cons]
    obtain ⟨d, hd⟩ := Option.isSome_iff_exists.mp (h a (List.mem_cons_self a tl))
    rw [hd]
    simp [ih (fun n hn => h n (List.mem_cons_of_mem a hn))]

/-- C8: for every repacked archive whose original entries were all extracted
to the working directory, the output entries are exactly the original names
in the original order followed by the genuinely new working-directory files,
and every entry is stored uncompressed. -/
theorem repack_entries_order_and_store_spec
    (originalList : List String) (workdir : List (String × List ℕ))
    (h : ∀ n ∈ originalList, (dictLookup workdir n).isSome = true) :
    ((repack_entries originalList workdir).map (fun e => e.name)
      = originalList
        ++ (workdir.filter
              (fun p => ¬ originalList.contains p.1 ∧ p.1 ≠ "optimized.usdz")).map
            (fun p => p.1))
    ∧ ∀ e ∈ repack_entries originalList workdir, e.method = CompressMethod.stored := by
  constructor
  · unfold repack_entries
    rw [List.map_append, List.map_map, filterMap_lookup_names workdir originalList h]
    rfl
  · intro e he
    rcases List.mem_append.mp he with hl | hr
    · obtain ⟨n, -, hn⟩ := List.mem_filterMap.mp hl
      obtain ⟨d, -, hd⟩ := Option.map_eq_some.mp hn
      rw [← hd]
    · obtain ⟨p, -, hp⟩ := List.mem_map.mp hr
      rw [← hp]

/-- C8 witness: original entries `[A, B, C]` with one new file `D` produce
output entries named exactly `[A, B, C, D]`, all stored. -/
theorem repack_entries_order_and_store_spec_witness :
    (∀ n ∈ c8w_names, (dictLookup c8w_workdir n).isSome = true)
      ∧ ((repack_entries c8w_names c8w_workdir).map (fun e => e.name)
          = c8w_names
            ++ (c8w_workdir.filter
                  (fun p => ¬ c8w_names.contains p.1 ∧ p.1 ≠ "optimized.usdz")).map
                (fun p => p.1))
      ∧ ∀ e ∈ repack_entries c8w_names c8w_workdir, e.method = CompressMethod.stored :=
  ⟨by decide,
    (repack_entries_order_and_store_spec c8w_names c8w_workdir (by decide)).1,
    (repack_entries_order_and_store_spec c8w_names c8w_workdir (by decide)).2⟩

/-! ## C5 — proposals with a missing id or coordinate are dropped entirely -/

theorem clean_proposals_drops_invalid (t : Proposal)
    (h : pyStrip t.object_id = "" ∨ t.has_pos = false ∨ t.pos_x = none ∨ t.pos_y = none) :
    ∀ l : List Proposal, clean_proposals (t :: l) = clean_proposals l := by
  intro l
  unfold clean_proposals
  rw [List.filterMap_cons]
  rcases h with h | h | h | h
  · simp [h]
  · simp [h]
  · by_cases h1 : pyStrip t.object_id = ""
    · simp [h1]
    · by_cases h2 : t.has_pos = false
      · simp [h1, h2]
      · cases hy : t.pos_y <;> simp [h1, h2, h, hy]
  · by_cases h1 : pyStrip t.object_id = ""
    · simp [h1]
    · by_cases h2 : t.has_pos = false
      · simp [h1, h2]
      · cases hx : t.pos_x <;> simp [h1, h2, h, hx]

/-- C5: the sanitizer drops every proposal that is missing an object id, a
position dict, or either position coordinate — never substituting a zero
default: inserting such a proposal anywhere in the input leaves the
sanitizer's output completely unchanged (in particular a proposal whose
`new_position` lacks `y` contributes no relocation at all, so nothing is
moved to `(x, 0)`). -/
theorem invalid_proposal_dropped_entirely
    (l1 l2 : List Proposal) (t : Proposal) (objs : List RoomObject)
    (pb : Option (ℚ × ℚ × ℚ × ℚ))
    (h : pyStrip t.object_id = "" ∨ t.has_pos = false ∨ t.pos_x = none ∨ t.pos_y = none) :
    normalize_and_spread_transformations (l1 ++ t :: l2) objs pb
      = normalize_and_spread_transformations (l1 ++ l2) objs pb := by
  have hclean : clean_proposals (l1 ++ t :: l2) = clean_proposals (l1 ++ l2) := by
    unfold clean_proposals
    rw [List.filterMap_append, List.filterMap_append]
    have := clean_proposals_drops_invalid t h l2
    unfold clean_proposals at this
    rw [this]
  by_cases hE : (l1 ++ l2).isEmpty
  · obtain ⟨h1, h2⟩ := List.append_eq_nil.mp (List.isEmpty_iff.mp hE)
    subst h1; subst h2
    have ht : clean_proposals [t] = [] := by
      have := clean_proposals_drops_invalid t h []
      simpa using this
    simp [normalize_and_spread_transformations, ht]
  · have hE2 : (l1 ++ t :: l2).isEmpty = false := by
      rcases l1 with - | ⟨a, tl⟩ <;> simp
    have hE3 : (l1 ++ l2).isEmpty = false := by
      simpa using hE
    unfold normalize_and_spread_transformations
    rw [hE2, hE3, hclean]

/-- C5 witness: inserting a concrete proposal whose `new_position` lacks the
`y` coordinate between two valid proposals leaves the sanitizer output
unchanged. -/
theorem invalid_proposal_dropped_entirely_witness :
    c5w_bad.pos_y = none
      ∧ normalize_and_spread_transformations (c5w_l1 ++ c5w_bad :: c5w_l2) [] none
          = normalize_and_spread_transformations (c5w_l1 ++ c5w_l2) [] none :=
  ⟨rfl, invalid_proposal_dropped_entirely c5w_l1 c5w_l2 c5w_bad [] none
    (Or.inr (Or.inr (Or.inr rfl)))⟩

/-! ## C6 — the sanitizer does not deduplicate; the modify step's map does -/

theorem collapse_phase_map_ids (objs : List RoomObject) (l : List SanitizedRelocation) :
    (collapse_phase objs l).map (fun t => t.object_id) = l.map (fun t => t.object_id) := by
  unfold collapse_phase
  rw [List.map_map]
  apply List.map_congr_left
  intro t _
  dsimp only [Function.comp]
  split
  · rfl
  · split
    · rfl
    · rfl

theorem clamp_phase_map_ids (objs : List RoomObject) (pb : Option (ℚ × ℚ × ℚ × ℚ))
    (l : List SanitizedRelocation) :
    (clamp_phase objs pb l).map (fun t => t.object_id) = l.map (fun t => t.object_id) := by
  unfold clamp_phase
  rw [List.map_map]
  rfl

theorem spread_foldl_map_ids (objs : List RoomObject) (pb : Option (ℚ × ℚ × ℚ × ℚ)) :
    ∀ (l : List SanitizedRelocation) (acc : List (ℚ × ℚ × ℚ) × List SanitizedRelocation),
      ((l.foldl (spread_step objs pb) acc).2).map (fun t => t.object_id)
        = acc.2.map (fun t => t.object_id) ++ l.map (fun t => t.object_id) := by
  intro l
  induction l with
  | nil => intro acc; simp
  | cons t tl ih =>
    intro acc
    rw [List.foldl_cons, ih]
    simp [spread_step]

theorem spread_phase_map_ids (objs : List RoomObject) (pb : Option (ℚ × ℚ × ℚ × ℚ))
    (l : List SanitizedRelocation) :
    (spread_phase objs pb l).map (fun t => t.object_id) = l.map (fun t => t.object_id) := by
  unfold spread_phase
  rw [spread_foldl_map_ids]
  rfl

theorem dictInsert_keys_nodup {α : Type} (m : List (String × α)) (k : String) (v : α)
    (h : (m.map Prod.fst).Nodup) : ((dictInsert m k v).map Prod.fst).Nodup := by
  unfold dictInsert
  split
  · have heq : (m.map (fun p => if p.1 = k then (k, v) else p)).map Prod.fst = m.map Prod.fst := by
      rw [List.map_map]
      apply List.map_congr_left
      intro p _
      dsimp only [Function.comp]
      split
      · rename_i hp
        rw [← hp]
      · rfl
    rw [heq]
    exact h
  · rename_i hany
    rw [List.map_append, List.nodup_append]
    refine ⟨h, List.nodup_singleton k, ?_⟩
    intro a ha hk
    obtain rfl : a = k := by simpa using hk
    obtain ⟨p, hp, hp2⟩ := List.mem_map.mp ha
    exact hany (List.any_eq_true.mpr ⟨p, hp, by simp [hp2]⟩)

theorem build_transform_map_keys_nodup (l : List SanitizedRelocation) :
    ((build_transform_map l).map Prod.fst).Nodup := by
  unfold build_transform_map
  have := foldl_invariant
    (fun (m : List (String × SanitizedRelocation)) (t : SanitizedRelocation) =>
      if pyStrip t.object_id = "" then m else dictInsert m (asciiLower (pyStrip t.object_id)) t)
    (fun m => (m.map Prod.fst).Nodup) (fun _ => True)
    ?_ l [] List.nodup_nil (fun _ _ => trivial)
  · exact this
  · intro m t hm _
    dsimp only
    split
    · exact hm
    · exact dictInsert_keys_nodup m _ t hm

/-- C6 (amended): the sanitizer never deduplicates and never drops a cleaned
proposal for having an unknown object id — its output carries exactly the
cleaned proposals' object ids, in order, duplicates and unknown ids included,
without raising; deduplication by id happens downstream, in the id-keyed
`transform_map` that `_modify_usda_file` builds, whose keys are pairwise
distinct (so at most one transformation is applied per lowercased id there).
-/
theorem sanitizer_keeps_ids_modify_map_dedups :
    (∀ (ts : List Proposal) (objs : List RoomObject) (pb : Option (ℚ × ℚ × ℚ × ℚ)),
      (normalize_and_spread_transformations ts objs pb).map (fun t => t.object_id)
        = (clean_proposals ts).map (fun t => t.object_id))
    ∧ ∀ l : List SanitizedRelocation, ((build_transform_map l).map Prod.fst).Nodup := by
  constructor
  · intro ts objs pb
    unfold normalize_and_spread_transformations
    split
    · rename_i hts
      obtain rfl : ts = [] := List.isEmpty_iff.mp hts
      rfl
    · dsimp only
      split
      · rename_i hcl
        rw [List.isEmpty_iff.mp hcl]
      · rw [spread_phase_map_ids, clamp_phase_map_ids, collapse_phase_map_ids]
  · exact build_transform_map_keys_nodup

/-- C6 counterexample: two valid proposals sharing the unknown id `"a"` (no
`SpatialObject` carries it) both survive sanitization — the output is not
deduplicated by id, and unknown-id proposals are not dropped by the
sanitizer. -/
theorem sanitizer_not_dedup_counterexample :
    (normalize_and_spread_transformations c6x_ts [] none).map (fun t => t.object_id)
        = ["a", "a"]
      ∧ ¬ ((normalize_and_spread_transformations c6x_ts [] none).map
            (fun t => t.object_id)).Nodup
      ∧ dictLookup (orig_pos_by_id []) "a" = none := by
  with_unfolding_all decide

/-! ## Clamp-fixedness of the sanitizer's output (towards C2 and C4) -/

theorem clamp_phase_clampFixed (objs : List RoomObject) (pb : Option (ℚ × ℚ × ℚ × ℚ))
    (l : List SanitizedRelocation) :
    ∀ t ∈ clamp_phase objs pb l, clampFixed objs pb t := by
  intro t ht
  obtain ⟨u, -, hu⟩ := List.mem_map.mp ht
  subst hu
  unfold clampFixed
  dsimp only
  rw [Prod.mk.eta]
  exact clamp_to_room_idem objs pb _ _

theorem spread_phase_clampFixed (objs : List RoomObject) (pb : Option (ℚ × ℚ × ℚ × ℚ))
    (l : List SanitizedRelocation) :
    ∀ t ∈ spread_phase objs pb l, clampFixed objs pb t := by
  unfold spread_phase
  refine foldl_invariant (spread_step objs pb)
    (fun acc => ∀ t ∈ acc.2, clampFixed objs pb t) (fun _ => True)
    ?_ l ([], []) (by simp) (fun _ _ => trivial)
  intro acc t hP _
  intro u hu
  unfold spread_step at hu
  dsimp only at hu
  rcases List.mem_append.mp hu with h | h
  · exact hP u h
  · obtain rfl : u = _ := by simpa using h
    unfold clampFixed
    dsimp only
    rw [Prod.mk.eta]
    exact clamp_to_room_idem objs pb _ _

theorem normalize_output_clampFixed (ts : List Proposal) (objs : List RoomObject)
    (pb : Option (ℚ × ℚ × ℚ × ℚ)) :
    ∀ t ∈ normalize_and_spread_transformations ts objs pb, clampFixed objs pb t := by
  unfold normalize_and_spread_transformations
  split
  · intro t ht
    exact absurd ht (List.not_mem_nil t)
  · dsimp only
    split
    · intro t ht
      exact absurd ht (List.not_mem_nil t)
    · exact spread_phase_clampFixed objs pb _

/-! ## C2 — positions respect the wall margins (when the margin fits) -/

/-- C2 (amended): every sanitized relocation produced with known room bounds
lies within `[min_x+margin, max_x-margin] × [min_y+margin, max_y-margin]`
*provided* those intervals are nonempty (i.e. the margin is at most half the
room extent — when a footprint's margin exceeds the room half-extent the
clamp pins the coordinate to the upper bound `max - margin` instead, see the
counterexample); and the extra clearance is strictly larger for desks/tables
(`0.25`) than for every other type such as chairs (`0.12`). -/
theorem sanitized_positions_respect_wall_margins :
    (∀ (ts : List Proposal) (objs : List RoomObject) (pb : Option (ℚ × ℚ × ℚ × ℚ))
        (mnx mxx mny mxy : ℚ) (t : SanitizedRelocation),
      t ∈ normalize_and_spread_transformations ts objs pb →
      effective_bounds objs pb = some (mnx, mxx, mny, mxy) →
      mnx + wall_margin objs (asciiLower t.object_id)
          ≤ mxx - wall_margin objs (asciiLower t.object_id) →
      mny + wall_margin objs (asciiLower t.object_id)
          ≤ mxy - wall_margin objs (asciiLower t.object_id) →
      mnx + wall_margin objs (asciiLower t.object_id) ≤ t.px
        ∧ t.px ≤ mxx - wall_margin objs (asciiLower t.object_id)
        ∧ mny + wall_margin objs (asciiLower t.object_id) ≤ t.py
        ∧ t.py ≤ mxy - wall_margin objs (asciiLower t.object_id))
    ∧ ∀ ty : String, ty ≠ "desk" → ty ≠ "table" →
        extra_clearance ty < extra_clearance "desk" := by
  constructor
  · intro ts objs pb mnx mxx mny mxy t ht hb hx hy
    have hcf := normalize_output_clampFixed ts objs pb t ht
    unfold clampFixed clamp_to_room at hcf
    rw [hb] at hcf
    dsimp only at hcf
    have h1 := congrArg Prod.fst hcf
    have h2 := congrArg Prod.snd hcf
    dsimp only at h1 h2
    refine ⟨?_, ?_, ?_, ?_⟩
    · rw [← h1]
      exact clamp1_lo_le _ _ _ hx
    · rw [← h1]
      exact clamp1_le_hi _ _ _
    · rw [← h2]
      exact clamp1_lo_le _ _ _ hy
    · rw [← h2]
      exact clamp1_le_hi _ _ _
  · intro ty h1 h2
    unfold extra_clearance
    rw [if_neg (by simp [h1, h2]), if_pos (Or.inl rfl)]
    norm_num

/-- C2 witness: a chair relocated to `(2, 2)` in a room with fallback bounds
`[-4.35, 6.35]²` and margin `0.37` indeed lands inside the margin box. -/
theorem sanitized_positions_respect_wall_margins_witness :
    ((⟨"c1", 2, 2, none, 0⟩ : SanitizedRelocation)
        ∈ normalize_and_spread_transformations c2w_ts c2w_objs none)
      ∧ effective_bounds c2w_objs none = some (-87/20, 127/20, -87/20, 127/20)
      ∧ (-87/20 + wall_margin c2w_objs (asciiLower "c1")
            ≤ (⟨"c1", 2, 2, none, 0⟩ : SanitizedRelocation).px
          ∧ (⟨"c1", 2, 2, none, 0⟩ : SanitizedRelocation).px
            ≤ 127/20 - wall_margin c2w_objs (asciiLower "c1")
          ∧ -87/20 + wall_margin c2w_objs (asciiLower "c1")
            ≤ (⟨"c1", 2, 2, none, 0⟩ : SanitizedRelocation).py
          ∧ (⟨"c1", 2, 2, none, 0⟩ : SanitizedRelocation).py
            ≤ 127/20 - wall_margin c2w_objs (asciiLower "c1")) :=
  ⟨by with_unfolding_all decide, by with_unfolding_all decide,
    sanitized_positions_respect_wall_margins.1 c2w_ts c2w_objs none
      (-87/20) (127/20) (-87/20) (127/20) ⟨"c1", 2, 2, none, 0⟩
      (by with_unfolding_all decide) (by with_unfolding_all decide)
      (by with_unfolding_all decide) (by with_unfolding_all decide)⟩

/-- C2 counterexample: a 2 m × 2 m chair in a scan whose fallback bounds span
only `[-0.35, 0.35]²` gets margin `1.12 > 0.35`, the clamp interval is empty,
and the sanitized position `(-0.77, -0.77)` lies *outside* the claimed box
`[min_x+margin, max_x-margin] × [min_y+margin, max_y-margin]`. -/
theorem sanitized_position_outside_box_counterexample :
    (normalize_and_spread_transformations c2x_ts c2x_objs none).map (fun t => (t.px, t.py))
        = [(-77/100, -77/100)]
      ∧ effective_bounds c2x_objs none = some (-7/20, 7/20, -7/20, 7/20)
      ∧ wall_margin c2x_objs (asciiLower "c1") = 28/25
      ∧ ¬ (-7/20 + wall_margin c2x_objs (asciiLower "c1") ≤ (-77/100 : ℚ)
            ∧ (-77/100 : ℚ) ≤ 7/20 - wall_margin c2x_objs (asciiLower "c1")) := by
  with_unfolding_all decide

/-! ## C4 — pairwise separation or documented fallback -/

theorem collides_false_separated (taken : List (ℚ × ℚ × ℚ)) (cand : ℚ × ℚ) (sep : ℚ)
    (h : collidesWith taken cand sep = false) :
    ∀ e ∈ taken, max sep e.2.2 ^ 2 ≤ distSq cand (e.1, e.2.1) := by
  intro e he
  have h2 := List.any_eq_false.mp h e he
  exact le_of_not_lt (by simpa using h2)

theorem le_distSq_flip {A B : ℚ} {P Q : ℚ × ℚ} (h : max B A ^ 2 ≤ distSq Q P) :
    max A B ^ 2 ≤ distSq P Q := by
  rw [max_comm, distSq_comm]
  exact h

theorem spread_fin_spec (objs : List RoomObject) (pb : Option (ℚ × ℚ × ℚ × ℚ))
    (taken : List (ℚ × ℚ × ℚ)) (t : SanitizedRelocation) (hcf : clampFixed objs pb t) :
    collidesWith taken
        (clamp_to_room objs pb (asciiLower t.object_id) (spread_candidate objs pb taken t))
        (base_sep objs (asciiLower t.object_id)) = false
      ∨ ∀ op, dictLookup (orig_pos_by_id objs) (asciiLower t.object_id) = some op →
          clamp_to_room objs pb (asciiLower t.object_id) (spread_candidate objs pb taken t)
            = clamp_to_room objs pb (asciiLower t.object_id) op := by
  unfold spread_candidate
  split
  · cases hsp : spiral_search objs pb taken (asciiLower t.object_id) t.px t.py
        (base_sep objs (asciiLower t.object_id)) with
    | some c =>
      simp only [hsp]
      left
      obtain ⟨⟨p, hp⟩, hnc⟩ := spiral_search_spec objs pb taken _ _ _ _ c hsp
      have hcc : clamp_to_room objs pb (asciiLower t.object_id) c = c := by
        rw [hp]
        exact clamp_to_room_idem objs pb _ _
      rw [hcc]
      exact hnc
    | none =>
      simp only [hsp]
      cases hlk : dictLookup (orig_pos_by_id objs) (asciiLower t.object_id) with
      | some op =>
        simp only [hlk]
        right
        intro op2 hop2
        obtain rfl : op = op2 := Option.some.inj hop2
        exact clamp_to_room_idem objs pb _ _
      | none =>
        simp only [hlk]
        right
        intro op2 hop2
        exact absurd hop2 (by simp)
  · rename_i hc
    left
    have hcf2 : clamp_to_room objs pb (asciiLower t.object_id) (t.px, t.py) = (t.px, t.py) :=
      hcf
    rw [hcf2]
    simpa using hc

theorem spread_phase_pairwise (objs : List RoomObject) (pb : Option (ℚ × ℚ × ℚ × ℚ))
    (l : List SanitizedRelocation) (hl : ∀ t ∈ l, clampFixed objs pb t) :
    List.Pairwise (sepOrFallback objs pb) (spread_phase objs pb l) := by
  unfold spread_phase
  have inv := foldl_invariant (spread_step objs pb)
    (fun acc => acc.1 = acc.2.map (fun u => (u.px, u.py, reloc_sep objs u))
      ∧ List.Pairwise (sepOrFallback objs pb) acc.2)
    (clampFixed objs pb) ?_ l ([], []) ⟨rfl, List.Pairwise.nil⟩ hl
  · exact inv.2
  · intro acc t hP hQ
    obtain ⟨hmap, hpw⟩ := hP
    unfold spread_step
    dsimp only
    constructor
    · rw [List.map_append, ← hmap]
      rfl
    · rw [List.pairwise_append]
      refine ⟨hpw, List.pairwise_singleton _ _, ?_⟩
      intro a ha b hb
      obtain rfl : b = _ := (List.mem_singleton.mp hb)
      have hmem : (a.px, a.py, reloc_sep objs a) ∈ acc.1 := by
        rw [hmap]
        exact List.mem_map_of_mem _ ha
      rcases spread_fin_spec objs pb acc.1 t hQ with hF | hF
      · left
        unfold well_separated reloc_sep
        dsimp only
        rw [Prod.mk.eta]
        have h3 := collides_false_separated _ _ _ hF (a.px, a.py, reloc_sep objs a) hmem
        exact le_distSq_flip h3
      · right
        intro op hop
        dsimp only
        rw [Prod.mk.eta]
        exact hF op hop

/-- C4 (amended): for every pair of relocations in the sanitizer's output,
the pairwise Euclidean distance is at least the required separation
`max(max(larger_footprint_dimension, 0.6) * 0.55 of the two members)`, OR the
later-placed member of the pair sits at its *clamped* original position (the
spiral-failure fallback) whenever its id has a known original position; a
member whose id is unknown keeps its clamped proposed target (and carries no
separation guarantee).  The bounded spiral search itself (rings `1..24` of
radius `separation * ring_index`, eight compass angles, re-clamped
candidates) is the `spiral_search` definition used by the sanitizer. -/
theorem sanitized_relocations_pairwise_separated_or_fallback
    (ts : List Proposal) (objs : List RoomObject) (pb : Option (ℚ × ℚ × ℚ × ℚ)) :
    List.Pairwise (sepOrFallback objs pb) (normalize_and_spread_transformations ts objs pb) := by
  unfold normalize_and_spread_transformations
  split
  · exact List.Pairwise.nil
  · dsimp only
    split
    · exact List.Pairwise.nil
    · exact spread_phase_pairwise objs pb _ (clamp_phase_clampFixed objs pb _)

/-- C4 counterexample: two oversized chairs whose clamp interval is empty end
up stacked at the very same point `(-0.57, -0.77)` — closer than the required
separation `1.1` — while *neither* equals its original (pre-relocation)
position (`(0, 0)` and `(0.2, 0)`): the fallback is the *clamped* original,
not the original, so the claim as stated is false. -/
theorem spread_overlap_counterexample :
    (normalize_and_spread_transformations c4x_ts c4x_objs none).map (fun t => (t.px, t.py))
        = [(-57/100, -77/100), (-57/100, -77/100)]
      ∧ distSq (-57/100, -77/100) (-57/100, -77/100)
          < max (base_sep c4x_objs "a") (base_sep c4x_objs "b") ^ 2
      ∧ ((-57/100, -77/100) : ℚ × ℚ) ≠ (0, 0)
      ∧ ((-57/100, -77/100) : ℚ × ℚ) ≠ (1/5, 0)
      ∧ dictLookup (orig_pos_by_id c4x_objs) "a" = some (0, 0)
      ∧ dictLookup (orig_pos_by_id c4x_objs) "b" = some (1/5, 0) := by
  with_unfolding_all decide

/-! ## C3 — degenerate-collapse detection and uniform group translation -/

theorem not_collides_of_separated (objs : List RoomObject)
    (pre : List SanitizedRelocation) (t : SanitizedRelocation)
    (h : ∀ u ∈ pre, well_separated objs u t) :
    collidesWith (pre.map (fun u => (u.px, u.py, reloc_sep objs u))) (t.px, t.py)
      (base_sep objs (asciiLower t.object_id)) = false := by
  unfold collidesWith
  rw [List.any_eq_false]
  intro e he
  obtain ⟨u, hu, rfl⟩ := List.mem_map.mp he
  simp only [decide_eq_true_eq, not_lt]
  exact le_distSq_flip (h u hu)

theorem spread_step_fixed (objs : List RoomObject) (pb : Option (ℚ × ℚ × ℚ × ℚ))
    (pre : List SanitizedRelocation) (t : SanitizedRelocation)
    (hcf : clampFixed objs pb t) (hsep : ∀ u ∈ pre, well_separated objs u t) :
    spread_step objs pb (pre.map (fun u => (u.px, u.py, reloc_sep objs u)), pre) t
      = ((pre ++ [t]).map (fun u => (u.px, u.py, reloc_sep objs u)), pre ++ [t]) := by
  have hnc := not_collides_of_separated objs pre t hsep
  have hcand : spread_candidate objs pb
      (pre.map (fun u => (u.px, u.py, reloc_sep objs u))) t = (t.px, t.py) := by
    unfold spread_candidate
    rw [hnc]
    rfl
  have hcf2 : clamp_to_room objs pb (asciiLower t.object_id) (t.px, t.py) = (t.px, t.py) := hcf
  unfold spread_step
  dsimp only
  rw [hcand, hcf2, List.map_append]
  rfl

theorem spread_foldl_fixed (objs : List RoomObject) (pb : Option (ℚ × ℚ × ℚ × ℚ)) :
    ∀ l pre : List SanitizedRelocation,
      (∀ u ∈ pre ++ l, clampFixed objs pb u) →
      List.Pairwise (well_separated objs) (pre ++ l) →
      l.foldl (spread_step objs pb)
          (pre.map (fun u => (u.px, u.py, reloc_sep objs u)), pre)
        = ((pre ++ l).map (fun u => (u.px, u.py, reloc_sep objs u)), pre ++ l) := by
  intro l
  induction l with
  | nil =>
    intro pre _ _
    simp
  | cons t l2 ih =>
    intro pre hcf hpw
    rw [List.foldl_cons]
    have hsep : ∀ u ∈ pre, well_separated objs u t := by
      intro u hu
      exact (List.pairwise_append.mp hpw).2.2 u hu t (List.mem_cons_self t l2)
    rw [spread_step_fixed objs pb pre t
      (hcf t (List.mem_append.mpr (Or.inr (List.mem_cons_self t l2)))) hsep]
    have h2 := ih (pre ++ [t])
      (by intro u hu; apply hcf; simpa [List.append_assoc] using hu)
      (by simpa [List.append_assoc] using hpw)
    simpa [List.append_assoc] using h2

theorem spread_phase_eq_self (objs : List RoomObject) (pb : Option (ℚ × ℚ × ℚ × ℚ))
    (l : List SanitizedRelocation) (h1 : ∀ t ∈ l, clampFixed objs pb t)
    (h2 : List.Pairwise (well_separated objs) l) :
    spread_phase objs pb l = l := by
  unfold spread_phase
  have h3 := spread_foldl_fixed objs pb l [] (by simpa using h1) (by simpa using h2)
  simp only [List.map_nil, List.nil_append] at h3
  rw [h3]

theorem clamp_phase_eq_self (objs : List RoomObject) (pb : Option (ℚ × ℚ × ℚ × ℚ))
    (l : List SanitizedRelocation) (h : ∀ t ∈ l, clampFixed objs pb t) :
    clamp_phase objs pb l = l := by
  unfold clamp_phase
  have h2 : ∀ t ∈ l,
      (fun t => { t with
        px := (clamp_to_room objs pb (asciiLower t.object_id) (t.px, t.py)).1,
        py := (clamp_to_room objs pb (asciiLower t.object_id) (t.px, t.py)).2
        : SanitizedRelocation }) t = id t := by
    intro t ht
    have h3 : clamp_to_room objs pb (asciiLower t.object_id) (t.px, t.py) = (t.px, t.py) :=
      h t ht
    dsimp only
    rw [h3]
    rfl
  rw [List.map_congr_left h2, List.map_id]

theorem collapse_phase_all_group (objs : List RoomObject)
    (cleaned : List SanitizedRelocation) (ty : String)
    (hty : ty ≠ "") (hall : ∀ t ∈ cleaned, sanType objs t = ty)
    (happ : collapse_applies objs ty cleaned = true) :
    collapse_phase objs cleaned = cleaned.map (collapse_translate objs cleaned) := by
  unfold collapse_phase
  apply List.map_congr_left
  intro t ht
  dsimp only
  rw [hall t ht, if_neg hty]
  have hg : cleaned.filter (fun u => sanType objs u = ty) = cleaned :=
    List.filter_eq_self.mpr (fun u hu => by simp [hall u hu])
  rw [hg, if_pos happ]

/-- C3 (amended): when every cleaned proposal belongs to one (nonempty) type
group and the code's collapse condition holds — at least two members, a
crowd-prone type (`chair`/`desk`) or at least four members, at most
`max(1, count // 6)` distinct ~2 cm target buckets (the code uses this
*floor*-based threshold, not the claim's `ceil(count/6)` — see the
counterexample), and all originals known — then, provided the uniformly
translated positions need no clamping and are pairwise separated, the
sanitizer's output replaces every member's target with
`original_position + (mean(proposed_targets) − mean(original_positions))`. -/
theorem collapse_group_uniform_translation
    (ts : List Proposal) (objs : List RoomObject) (pb : Option (ℚ × ℚ × ℚ × ℚ))
    (ty : String)
    (hty : ty ≠ "")
    (hall : ∀ t ∈ clean_proposals ts, sanType objs t = ty)
    (happ : collapse_applies objs ty (clean_proposals ts) = true)
    (hclamp : ∀ u ∈ (clean_proposals ts).map (collapse_translate objs (clean_proposals ts)),
      clampFixed objs pb u)
    (hsep : List.Pairwise (well_separated objs)
      ((clean_proposals ts).map (collapse_translate objs (clean_proposals ts)))) :
    normalize_and_spread_transformations ts objs pb
      = (clean_proposals ts).map (collapse_translate objs (clean_proposals ts)) := by
  have hprop := of_decide_eq_true happ
  have hlen : 2 ≤ (clean_proposals ts).length := hprop.1
  have hne : ts.isEmpty = false := by
    rcases ts with - | ⟨a, l⟩
    · simp [clean_proposals] at hlen
    · rfl
  have hne2 : (clean_proposals ts).isEmpty = false := by
    rcases hcp : clean_proposals ts with - | ⟨a, l⟩
    · rw [hcp] at hlen
      simp at hlen
    · rfl
  unfold normalize_and_spread_transformations
  simp only [hne, Bool.false_eq_true, if_false, hne2]
  rw [collapse_phase_all_group objs (clean_proposals ts) ty hty hall happ]
  rw [clamp_phase_eq_self objs pb _ hclamp]
  exact spread_phase_eq_self objs pb _ hclamp hsep

set_option maxRecDepth 20000 in
/-- C3 witness: ten chair proposals all targeting `(5, 5)`, originals spread
with centroid `(4, 5)`, in generous bounds: the sanitizer moves every chair
by exactly `delta = (5,5) − (4,5) = (1,0)`. -/
theorem collapse_group_uniform_translation_witness :
    ("chair" : String) ≠ ""
      ∧ (∀ t ∈ clean_proposals c3w_ts, sanType c3w_objs t = "chair")
      ∧ collapse_applies c3w_objs "chair" (clean_proposals c3w_ts) = true
      ∧ (∀ u ∈ (clean_proposals c3w_ts).map
            (collapse_translate c3w_objs (clean_proposals c3w_ts)),
          clampFixed c3w_objs none u)
      ∧ List.Pairwise (well_separated c3w_objs)
          ((clean_proposals c3w_ts).map
            (collapse_translate c3w_objs (clean_proposals c3w_ts)))
      ∧ group_delta c3w_objs (clean_proposals c3w_ts) = (1, 0)
      ∧ (clean_proposals c3w_ts).map (collapse_translate c3w_objs (clean_proposals c3w_ts))
          = [⟨"c0", 3, 5, none, 0⟩, ⟨"c1", 7, 5, none, 0⟩, ⟨"c2", 5, 3, none, 0⟩,
             ⟨"c3", 5, 7, none, 0⟩, ⟨"c4", 4, 4, none, 0⟩, ⟨"c5", 6, 6, none, 0⟩,
             ⟨"c6", 4, 6, none, 0⟩, ⟨"c7", 6, 4, none, 0⟩, ⟨"c8", 3, 3, none, 0⟩,
             ⟨"c9", 7, 7, none, 0⟩]
      ∧ normalize_and_spread_transformations c3w_ts c3w_objs none
          = (clean_proposals c3w_ts).map
              (collapse_translate c3w_objs (clean_proposals c3w_ts)) :=
  ⟨by decide, by with_unfolding_all decide, by with_unfolding_all decide,
    by with_unfolding_all decide, by with_unfolding_all decide,
    by with_unfolding_all decide, by with_unfolding_all decide,
    collapse_group_uniform_translation c3w_ts c3w_objs none "chair" (by decide)
      (by with_unfolding_all decide) (by with_unfolding_all decide)
      (by with_unfolding_all decide) (by with_unfolding_all decide)⟩

set_option maxRecDepth 20000 in
/-- C3 counterexample: seven chairs with two distinct bucketed targets.  The
claim's threshold `ceil(7/6) = 2` is met (`2 ≤ 2`), so the claim predicts a
uniform translation by `delta = (38/7 − 3, 38/7 − 0)`, yet the code compares
against `max(1, 7 // 6) = 1`, skips the collapse, and leaves the first chair
at its (clamped, conflict-free) proposed target `(5, 5)` instead of
`original + delta = (17/7, 38/7)`. -/
theorem collapse_ceil_threshold_counterexample :
    uniqCount (clean_proposals c3x_ts) = 2
      ∧ uniqCount (clean_proposals c3x_ts)
          ≤ nat_ceil_div (clean_proposals c3x_ts).length 6
      ∧ collapse_applies c3x_objs "chair" (clean_proposals c3x_ts) = false
      ∧ group_delta c3x_objs (clean_proposals c3x_ts) = (17/7, 38/7)
      ∧ dictLookup (orig_pos_by_id c3x_objs) "d0" = some (0, 0)
      ∧ (normalize_and_spread_transformations c3x_ts c3x_objs none).head?
          = some ⟨"d0", 5, 5, none, 0⟩
      ∧ ((5 : ℚ), (5 : ℚ)) ≠ ((0 : ℚ) + 17/7, (0 : ℚ) + 38/7) := by
  with_unfolding_all decide

/-! ## C10 — the crowd cap keeps others, at most one desk and one chair -/

theorem cap_sorted_head_min (l : List Proposal) (d : Proposal)
    (h : d ∈ (l.insertionSort capLe).take 1) : ∀ x ∈ l, capLe d x := by
  intro x hx
  have hx2 : x ∈ l.insertionSort capLe := (List.perm_insertionSort capLe l).mem_iff.mpr hx
  cases hs : l.insertionSort capLe with
  | nil =>
    rw [hs] at hx2
    exact absurd hx2 (List.not_mem_nil x)
  | cons a tl =>
    rw [hs] at h hx2
    obtain rfl : d = a := by simpa using h
    rcases List.mem_cons.mp hx2 with rfl | hmem
    · exact le_refl _
    · have hsort := List.sorted_insertionSort capLe l
      rw [hs] at hsort
      exact List.rel_of_sorted_cons hsort x hmem

theorem capLe_iff (d x : Proposal) :
    capLe d x ↔ x.score < d.score ∨ (x.score = d.score ∧ d.object_id ≤ x.object_id) := by
  unfold capLe
  rw [Prod.Lex.le_iff]
  dsimp only
  constructor
  · rintro (h | ⟨h1, h2⟩)
    · exact Or.inl (by linarith)
    · exact Or.inr ⟨by linarith, h2⟩
  · rintro (h | ⟨h1, h2⟩)
    · exact Or.inl (by linarith)
    · exact Or.inr ⟨by linarith, h2⟩

theorem cap_bucket_max (l : List Proposal) (d x : Proposal)
    (hd : d ∈ (l.insertionSort capLe).take 1) (hx : x ∈ l) :
    x.score < d.score ∨ (x.score = d.score ∧ d.object_id ≤ x.object_id) :=
  (capLe_iff d x).mp (cap_sorted_head_min l d hd x hx)

theorem cap_desks_take_type (objs : List RoomObject) (ts : List Proposal) :
    ∀ d ∈ ((cap_desks objs ts).insertionSort capLe).take 1, capType objs d = "desk" := by
  intro d hd
  have h1 : d ∈ (cap_desks objs ts).insertionSort capLe := List.mem_of_mem_take hd
  have h2 : d ∈ cap_desks objs ts := (List.perm_insertionSort capLe _).mem_iff.mp h1
  have h3 := List.mem_filter.mp h2
  simpa using h3.2

theorem cap_chairs_take_type (objs : List RoomObject) (ts : List Proposal) :
    ∀ c ∈ ((cap_chairs objs ts).insertionSort capLe).take 1, capType objs c = "chair" := by
  intro c hc
  have h1 : c ∈ (cap_chairs objs ts).insertionSort capLe := List.mem_of_mem_take hc
  have h2 : c ∈ cap_chairs objs ts := (List.perm_insertionSort capLe _).mem_iff.mp h1
  have h3 := List.mem_filter.mp h2
  simpa using h3.2

/-- C10: with a room request present and dict-shaped proposals carrying
nonempty ids, the cap keeps every proposal whose looked-up object type is
neither `desk` nor `chair`, lets at most one desk proposal and at most one
chair proposal survive, and each survivor is optimal in its bucket: every
other proposal of the same type has a strictly smaller
`expected_score_improvement`, or an equal one and an `object_id` no smaller
than the survivor's. -/
theorem cap_crowded_scenes_spec
    (ts : List Proposal) (objs : List RoomObject)
    (hids : ∀ t ∈ ts, pyStrip t.object_id ≠ "") :
    ((cap_transformations_for_crowded_scenes ts (some objs)).filter
        (fun t => capType objs t ≠ "desk" ∧ capType objs t ≠ "chair")
      = ts.filter (fun t => capType objs t ≠ "desk" ∧ capType objs t ≠ "chair"))
    ∧ ((cap_transformations_for_crowded_scenes ts (some objs)).filter
        (fun t => capType objs t = "desk")).length ≤ 1
    ∧ ((cap_transformations_for_crowded_scenes ts (some objs)).filter
        (fun t => capType objs t = "chair")).length ≤ 1
    ∧ (∀ d ∈ cap_transformations_for_crowded_scenes ts (some objs),
        capType objs d = "desk" → ∀ x ∈ ts, capType objs x = "desk" →
          x.score < d.score ∨ (x.score = d.score ∧ d.object_id ≤ x.object_id))
    ∧ (∀ c ∈ cap_transformations_for_crowded_scenes ts (some objs),
        capType objs c = "chair" → ∀ x ∈ ts, capType objs x = "chair" →
          x.score < c.score ∨ (x.score = c.score ∧ c.object_id ≤ x.object_id)) := by
  by_cases hempty : ts.isEmpty
  · obtain rfl : ts = [] := List.isEmpty_iff.mp hempty
    refine ⟨rfl, ?_, ?_, ?_, ?_⟩ <;> simp [cap_transformations_for_crowded_scenes]
  · have hout : cap_transformations_for_crowded_scenes ts (some objs)
        = cap_other objs ts ++ ((cap_desks objs ts).insertionSort capLe).take 1
          ++ ((cap_chairs objs ts).insertionSort capLe).take 1 := by
      unfold cap_transformations_for_crowded_scenes
      dsimp only
      rw [if_neg hempty]
    have hvalid : cap_valid ts = ts :=
      List.filter_eq_self.mpr (fun t ht => by simpa using hids t ht)
    have hotherpred : ∀ u ∈ cap_other objs ts,
        (capType objs u ≠ "desk" ∧ capType objs u ≠ "chair") := by
      intro u hu
      have := List.mem_filter.mp hu
      simpa using this.2
    refine ⟨?_, ?_, ?_, ?_, ?_⟩
    · rw [hout, List.filter_append, List.filter_append]
      have e1 : (cap_other objs ts).filter
          (fun t => capType objs t ≠ "desk" ∧ capType objs t ≠ "chair")
          = cap_other objs ts :=
        List.filter_eq_self.mpr (fun u hu => by simpa using hotherpred u hu)
      have e2 : (((cap_desks objs ts).insertionSort capLe).take 1).filter
          (fun t => capType objs t ≠ "desk" ∧ capType objs t ≠ "chair") = [] :=
        List.filter_eq_nil_iff.mpr (fun u hu => by
          simp [cap_desks_take_type objs ts u hu])
      have e3 : (((cap_chairs objs ts).insertionSort capLe).take 1).filter
          (fun t => capType objs t ≠ "desk" ∧ capType objs t ≠ "chair") = [] :=
        List.filter_eq_nil_iff.mpr (fun u hu => by
          simp [cap_chairs_take_type objs ts u hu])
      rw [e1, e2, e3, List.append_nil, List.append_nil]
      unfold cap_other
      rw [hvalid]
    · rw [hout, List.filter_append, List.filter_append]
      have e1 : (cap_other objs ts).filter (fun t => capType objs t = "desk") = [] :=
        List.filter_eq_nil_iff.mpr (fun u hu => by
          simp [(hotherpred u hu).1])
      have e3 : (((cap_chairs objs ts).insertionSort capLe).take 1).filter
          (fun t => capType objs t = "desk") = [] :=
        List.filter_eq_nil_iff.mpr (fun u hu => by
          simp [cap_chairs_take_type objs ts u hu])
      rw [e1, e3, List.nil_append, List.append_nil]
      refine le_trans (List.length_filter_le _ _) ?_
      rw [List.length_take]
      exact min_le_left _ _
    · rw [hout, List.filter_append, List.filter_append]
      have e1 : (cap_other objs ts).filter (fun t => capType objs t = "chair") = [] :=
        List.filter_eq_nil_iff.mpr (fun u hu => by
          simp [(hotherpred u hu).2])
      have e2 : (((cap_desks objs ts).insertionSort capLe).take 1).filter
          (fun t => capType objs t = "chair") = [] :=
        List.filter_eq_nil_iff.mpr (fun u hu => by
          simp [cap_desks_take_type objs ts u hu])
      rw [e1, e2, List.nil_append, List.nil_append]
      refine le_trans (List.length_filter_le _ _) ?_
      rw [List.length_take]
      exact min_le_left _ _
    · intro d hd hdesk x hx hxdesk
      rw [hout] at hd
      rcases List.mem_append.mp hd with hd2 | hd2
      · rcases List.mem_append.mp hd2 with hd3 | hd3
        · exact absurd hdesk (hotherpred d hd3).1
        · refine cap_bucket_max (cap_desks objs ts) d x hd3 ?_
          exact List.mem_filter.mpr ⟨hvalid.symm ▸ hx, by simp [hxdesk]⟩
      · have := cap_chairs_take_type objs ts d hd2
        rw [hdesk] at this
        exact absurd this (by decide)
    · intro c hc hchair x hx hxchair
      rw [hout] at hc
      rcases List.mem_append.mp hc with hc2 | hc2
      · rcases List.mem_append.mp hc2 with hc3 | hc3
        · exact absurd hchair (hotherpred c hc3).2
        · have := cap_desks_take_type objs ts c hc3
          rw [hchair] at this
          exact absurd this (by decide)
      · refine cap_bucket_max (cap_chairs objs ts) c x hc2 ?_
        exact List.mem_filter.mpr ⟨hvalid.symm ▸ hx, by simp [hxchair]⟩

/-- C10 witness: two chairs (scores 2 and 5), one desk, one lamp — the cap
keeps the lamp and the desk, and of the two chair proposals only `k2` (score
5) survives. -/
theorem cap_crowded_scenes_spec_witness :
    (∀ t ∈ c10w_ts, pyStrip t.object_id ≠ "")
      ∧ ((cap_transformations_for_crowded_scenes c10w_ts (some c10w_objs)).filter
            (fun t => capType c10w_objs t ≠ "desk" ∧ capType c10w_objs t ≠ "chair")
          = c10w_ts.filter
            (fun t => capType c10w_objs t ≠ "desk" ∧ capType c10w_objs t ≠ "chair"))
      ∧ ((cap_transformations_for_crowded_scenes c10w_ts (some c10w_objs)).filter
            (fun t => capType c10w_objs t = "chair")).length ≤ 1
      ∧ (cap_transformations_for_crowded_scenes c10w_ts (some c10w_objs)).map
            (fun t => t.object_id)
          = ["k4", "k3", "k2"] :=
  ⟨by decide,
    (cap_crowded_scenes_spec c10w_ts c10w_objs (by decide)).1,
    (cap_crowded_scenes_spec c10w_ts c10w_objs (by decide)).2.2.1,
    by with_unfolding_all decide⟩

end USDZOptimizer
